import Mathlib

/-!
# Verification of the another-anki-web study client

A shallow embedding of the core logic of the `another-anki-web` repository:
the study-session state machine (`src/app/routes/study.tsx`), the
card-content resolver (`CardContent` / `createAudioButton` /
`extractAudioFilename` / `getMimeType`), and the process-wide note-type
(models) cache (`src/app/lib/useAnkiConnect.ts`).

The external AnkiConnect engine is modelled as an oracle (`AnkiClient`): a
record of functions from request arguments to `Except`-valued results, one
result per RPC action.  Localization (`t(...)`) is modelled as an abstract
function from message keys to strings.  JavaScript `undefined` values that
can flow through the code (e.g. `cardsInfo(...)[0]` on an empty result) are
modelled with `Option`.
-/

set_option maxRecDepth 10000

namespace AnkiWeb

/-- The apostrophe character (U+0027), used inside generated markup. -/
def squote : Char := Char.ofNat 39

/-! ## Data model (`src/app/lib/ankiconnect.ts`) -/

/-- A note field: `{ order: number, value: string }`. -/
structure Field where
  order : Nat
  value : String
deriving DecidableEq, Repr

/-- The card snapshot returned by the engine (`CardInfo` in
`ankiconnect.ts`), restricted to the members the study page and the content
resolver read.  `fields` is the ordered entry list of the JS object
(`Object.entries` enumerates string keys in insertion order). -/
structure CardInfo where
  cardId : Nat
  question : String
  answer : String
  frontSide : String
  backSide : String
  fields : List (String × Field)
deriving DecidableEq, Repr

/-- One entry of the session's display list (`CardListItem` in `study.tsx`). -/
structure CardListItem where
  cardId : Nat
  sortField : String
deriving DecidableEq, Repr

/-- `sessionStats` of `StudySessionState`. -/
structure SessionStats where
  total : Nat
  studied : Nat
  again : Nat
  hard : Nat
  good : Nat
  easy : Nat
deriving DecidableEq, Repr

/-- `StudySessionState` from `study.tsx`.  `answeredCardIds` is a JS `Set`,
modelled as a `Finset Nat`. -/
structure StudySessionState where
  query : String
  cardQueue : List Nat
  cardList : List CardListItem
  currentIndex : Nat
  currentCard : Option CardInfo
  showAnswer : Bool
  answeredCardIds : Finset Nat
  sessionStats : SessionStats
deriving DecidableEq

/-- The component-level state of the study page that the claims mention:
the `isSessionActive` flag, the session, and the surfaced error message
(`null` = no error). -/
structure PageState where
  isSessionActive : Bool
  session : Option StudySessionState
  error : Option String
deriving DecidableEq

/-- The page state before any session was started. -/
def initialPage : PageState :=
  { isSessionActive := false, session := none, error := none }

/-! ## The external engine as an oracle

Each RPC action of the client that the study page calls is one field; a
`Except.error e` result models a rejected promise whose `Error` carries
message `e`.  `cardsInfo` takes `Option Nat` ids because JavaScript lets
`undefined` flow into `client.cardInfo` (e.g. from an out-of-bounds
`cardQueue[index]`), and returns the engine's list, whose length the code
never checks. -/

structure AnkiClient where
  findCards : String → Except String (List Nat)
  areDue : List Nat → Except String (List Bool)
  cardsInfo : List (Option Nat) → Except String (List CardInfo)
  answerCardsCall : List (Nat × Nat) → Except String Unit
  suspendCardsCall : List Nat → Except String Unit
  buryCardsCall : List Nat → Except String Unit
  setCardFlagCall : Nat → Nat → Except String Unit
  retrieveMediaFile : String → Except String (Option String)

/-- `client.cardInfo(cardId)` = `(await this.cardsInfo([cardId]))[0]`:
the head of the batch result, `undefined` (`none`) when the engine returns
an empty list. -/
def AnkiClient.cardInfo (c : AnkiClient) (id? : Option Nat) :
    Except String (Option CardInfo) :=
  match c.cardsInfo [id?] with
  | .error e => .error e
  | .ok infos => .ok infos.head?

/-! ## Markup stripping (`value.replace(/<[^>]*>/g, "")`) -/

/-- Drop characters up to and including the first `>`, if any
(the regex `<[^>]*>` matches from a `<` through the next `>`). -/
def dropPastGt : List Char → Option (List Char)
  | [] => none
  | c :: rest => if c = '>' then some rest else dropPastGt rest

theorem dropPastGt_length {l r : List Char} (h : dropPastGt l = some r) :
    r.length < l.length := by
  induction l with
  | nil => simp [dropPastGt] at h
  | cons c rest ih =>
    by_cases hc : c = '>'
    · simp [dropPastGt, hc] at h
      simp [← h]
    · simp [dropPastGt, hc] at h
      exact Nat.lt_trans (ih h) (Nat.lt_succ_self _)

/-- Character-level engine for the global replace of `/<[^>]*>/` by `""`:
on a `<` with a later `>`, the whole bracketed run is dropped; a `<` with
no following `>` never matches and is kept.  Structural recursion on a
fuel argument (one unit per consumed character) keeps the definition
kernel-computable; `stripTags` supplies `l.length`, which each step stays
under. -/
def stripTagsAux : Nat → List Char → List Char
  | 0, _ => []
  | _, [] => []
  | fuel + 1, c :: rest =>
    if c = '<' then
      match dropPastGt rest with
      | some rest2 => stripTagsAux fuel rest2
      | none => c :: stripTagsAux fuel rest
    else
      c :: stripTagsAux fuel rest

/-- `s.replace(/<[^>]*>/g, "")`. -/
def stripTags (s : String) : String := ⟨stripTagsAux s.data.length s.data⟩

/-- The JavaScript `WhiteSpace`/`LineTerminator` characters recognised by
`String.prototype.trim`. -/
def jsWhitespace (c : Char) : Bool :=
  c.toNat ∈ ([9, 10, 11, 12, 13, 32, 160, 5760, 8192, 8193, 8194, 8195,
    8196, 8197, 8198, 8199, 8200, 8201, 8202, 8232, 8233, 8239, 8287,
    12288, 65279] : List Nat)

/-- JavaScript `s.trim()`: strip leading and trailing whitespace. -/
def jsTrim (s : String) : String :=
  ⟨((s.data.dropWhile jsWhitespace).reverse.dropWhile jsWhitespace).reverse⟩

/-- The segment after the last separator (`s.split(sep).pop()`): the whole
string when no separator occurs, the empty string after a trailing
separator. -/
def lastSeg (sep : Char) (l : List Char) : List Char :=
  (l.foldl (fun acc c => if c = sep then [] else c :: acc) []).reverse

/-- `s.startsWith(lit)`. -/
def startsWithLit (lit s : String) : Bool := lit.data.isPrefixOf s.data

/-! ## startSession (`study.tsx` lines 78–148) -/

/-- `cardIds.filter((_, index) => dueStatus[index])`: keep the ids whose
position holds `true` in `dueStatus`; a missing entry (`undefined`) is
falsy. -/
def filterByDue (cardIds : List Nat) (dueStatus : List Bool) : List Nat :=
  ((cardIds.enum).filter (fun p => dueStatus.getD p.1 false)).map (·.2)

/-- The derivation of one `CardListItem` from a snapshot: the first field
with `order === 0` gives the sort field (markup stripped, trimmed), with
the localized `study.unknown` placeholder as fallback; the result is cut
to 100 characters (`substring(0, 100)`). -/
def cardListItemOf (tr : String → String) (card : CardInfo) : CardListItem :=
  let sortFieldEntry := card.fields.find? (fun f => f.2.order = 0)
  let sortField :=
    match sortFieldEntry with
    | some entry => jsTrim (stripTags entry.2.value)
    | none => tr "study.unknown"
  { cardId := card.cardId, sortField := sortField.take 100 }

/-- `startSession(query)`.  `tr` models the component's `t` translation
function.  Mirrors the source: `setError(null)` first; each RPC failure is
caught and surfaced (`err.message`); empty matches / empty due set return
early with the corresponding localized error and no session. -/
def startSession (tr : String → String) (c : AnkiClient) (query : String)
    (s : PageState) : PageState :=
  let s0 : PageState := { s with error := none }
  match c.findCards query with
  | .error e => { s0 with error := some e }
  | .ok cardIds =>
    if cardIds.length = 0 then
      { s0 with error := some (tr "study.errors.noCards") }
    else
      match c.areDue cardIds with
      | .error e => { s0 with error := some e }
      | .ok dueStatus =>
        let dueCardIds := filterByDue cardIds dueStatus
        if dueCardIds.length = 0 then
          { s0 with error := some (tr "study.errors.noDue") }
        else
          match c.cardsInfo (dueCardIds.map some) with
          | .error e => { s0 with error := some e }
          | .ok allCardsInfo =>
            let cardList := allCardsInfo.map (cardListItemOf tr)
            let firstCard := allCardsInfo.head?
            { isSessionActive := true
              session := some
                { query := query
                  cardQueue := dueCardIds
                  cardList := cardList
                  currentIndex := 0
                  currentCard := firstCard
                  showAnswer := false
                  answeredCardIds := ∅
                  sessionStats :=
                    { total := dueCardIds.length, studied := 0, again := 0,
                      hard := 0, good := 0, easy := 0 } }
              error := none }

/-! ## The remaining session operations -/

/-- `showAnswer()`: set `showAnswer := true`; no-op without a session. -/
def revealAnswer (s : PageState) : PageState :=
  match s.session with
  | none => s
  | some sess => { s with session := some { sess with showAnswer := true } }

/-- The RPC calls an operation issues, used to state what was submitted. -/
inductive RpcCall
  | answerCards (answers : List (Nat × Nat))
  | cardsInfoCall (ids : List (Option Nat))
deriving DecidableEq, Repr

/-- The stats update of `answerCard`: `studied` always bumps; the computed
key `easeLabels[ease - 1]` bumps the matching bucket (an out-of-range ease
writes a stray `undefined` key, leaving the four buckets unchanged). -/
def bumpStats (ease : Nat) (st : SessionStats) : SessionStats :=
  let st1 := { st with studied := st.studied + 1 }
  match ease with
  | 1 => { st1 with again := st.again + 1 }
  | 2 => { st1 with hard := st.hard + 1 }
  | 3 => { st1 with good := st.good + 1 }
  | 4 => { st1 with easy := st.easy + 1 }
  | _ => st1

/-- The message of the TypeError raised by
`session.currentCard!.cardId` when `currentCard` is null. -/
def nullCardMessage : String :=
  "Cannot read properties of null (reading \x27cardId\x27)"

/-- `answerCard(ease)` (`study.tsx` lines 159–210), also returning the RPC
calls it made.  Everything inside the `try` block — including the
`currentCard!.cardId` access — lands in the catch on failure, which only
sets the error message. -/
def answerCard (c : AnkiClient) (ease : Nat) (s : PageState) :
    PageState × List RpcCall :=
  match s.session with
  | none => (s, [])
  | some sess =>
    match sess.currentCard with
    | none => ({ s with error := some nullCardMessage }, [])
    | some card =>
      let submitted := [(card.cardId, ease)]
      match c.answerCardsCall submitted with
      | .error e =>
        ({ s with error := some e }, [RpcCall.answerCards submitted])
      | .ok _ =>
        let newStats := bumpStats ease sess.sessionStats
        let newAnswered := insert card.cardId sess.answeredCardIds
        if sess.currentIndex + 1 < sess.cardQueue.length then
          let nextCardId := sess.cardQueue.get? (sess.currentIndex + 1)
          match c.cardInfo nextCardId with
          | .error e =>
            ({ s with error := some e },
             [RpcCall.answerCards submitted, RpcCall.cardsInfoCall [nextCardId]])
          | .ok nextCard =>
            ({ s with session := some { sess with
                  currentIndex := sess.currentIndex + 1
                  currentCard := nextCard
                  showAnswer := false
                  answeredCardIds := newAnswered
                  sessionStats := newStats } },
             [RpcCall.answerCards submitted, RpcCall.cardsInfoCall [nextCardId]])
        else
          ({ s with session := some { sess with
                currentCard := none
                answeredCardIds := newAnswered
                sessionStats := newStats } },
           [RpcCall.answerCards submitted])

/-- `jumpToCard(index)`: no-op when no session or `index === currentIndex`;
otherwise fetch `cardQueue[index]` (an out-of-bounds access passes
`undefined` to the fetch) and move there with the answer hidden. -/
def jumpToCard (c : AnkiClient) (index : Nat) (s : PageState) : PageState :=
  match s.session with
  | none => s
  | some sess =>
    if index = sess.currentIndex then s
    else
      let cardId := sess.cardQueue.get? index
      match c.cardInfo cardId with
      | .error e => { s with error := some e }
      | .ok card =>
        { s with session := some { sess with
            currentIndex := index, currentCard := card,
            showAnswer := false } }

/-- The shared "advance or complete" tail of `suspendCard` / `buryCard`:
unlike `answerCard` it touches neither the stats nor `answeredCardIds`. -/
def advanceAfter (c : AnkiClient) (sess : StudySessionState) (s : PageState) :
    PageState :=
  if sess.currentIndex + 1 < sess.cardQueue.length then
    let nextCardId := sess.cardQueue.get? (sess.currentIndex + 1)
    match c.cardInfo nextCardId with
    | .error e => { s with error := some e }
    | .ok nextCard =>
      { s with session := some { sess with
          currentIndex := sess.currentIndex + 1,
          currentCard := nextCard, showAnswer := false } }
  else
    { s with session := some { sess with currentCard := none } }

/-- `suspendCard()`; its guard also requires a current card. -/
def suspendCard (c : AnkiClient) (s : PageState) : PageState :=
  match s.session with
  | none => s
  | some sess =>
    match sess.currentCard with
    | none => s
    | some card =>
      match c.suspendCardsCall [card.cardId] with
      | .error e => { s with error := some e }
      | .ok _ => advanceAfter c sess s

/-- `buryCard()`. -/
def buryCard (c : AnkiClient) (s : PageState) : PageState :=
  match s.session with
  | none => s
  | some sess =>
    match sess.currentCard with
    | none => s
    | some card =>
      match c.buryCardsCall [card.cardId] with
      | .error e => { s with error := some e }
      | .ok _ => advanceAfter c sess s

/-- `toggleFlag(flag)`: apply the flag, refetch the current snapshot, keep
the position; afterwards a confirmation message is pushed through the same
error channel. -/
def toggleFlag (tr : String → String) (c : AnkiClient) (flag : Nat)
    (s : PageState) : PageState :=
  match s.session with
  | none => s
  | some sess =>
    match sess.currentCard with
    | none => s
    | some card =>
      match c.setCardFlagCall card.cardId flag with
      | .error e => { s with error := some e }
      | .ok _ =>
        match c.cardInfo (some card.cardId) with
        | .error e => { s with error := some e }
        | .ok updatedCard =>
          { s with
            session := some { sess with currentCard := updatedCard }
            error := some (tr "study.errors.flagSet") }

/-- `endSession()`: discard the session unconditionally. -/
def endSession (s : PageState) : PageState :=
  { s with isSessionActive := false, session := none }

/-! ## Reachability and the session invariant -/

/-- The structural invariant of a live session: the display list and the
queue stay in lockstep, and while a current card exists the position is a
valid queue index. -/
def SessionInvariant (sess : StudySessionState) : Prop :=
  sess.cardList.length = sess.cardQueue.length ∧
    (sess.currentCard.isSome → sess.currentIndex < sess.cardQueue.length)

/-- The page-level invariant: every live session satisfies
`SessionInvariant`. -/
def PageInvariant (s : PageState) : Prop :=
  ∀ sess, s.session = some sess → SessionInvariant sess

/-- The batch-info contract of the engine: `cardsInfo` answers one snapshot
per requested id (§6 of the spec). -/
def ClientLenOk (c : AnkiClient) : Prop :=
  ∀ ids r, c.cardsInfo ids = Except.ok r → r.length = ids.length

/-- The page states reachable through the UI: every session operation, with
`jumpToCard` invoked only with an index of the rendered card list (the
source calls it exclusively from `session.cardList.map((item, index) =>
...)`), and `startSession` run against an engine honouring the batch-info
contract. -/
inductive Reachable (tr : String → String) : PageState → Prop
  | init : Reachable tr initialPage
  | start (c : AnkiClient) (q : String) (s : PageState) :
      Reachable tr s → ClientLenOk c → Reachable tr (startSession tr c q s)
  | reveal (s : PageState) : Reachable tr s → Reachable tr (revealAnswer s)
  | answer (c : AnkiClient) (ease : Nat) (s : PageState) :
      Reachable tr s → Reachable tr (answerCard c ease s).1
  | jump (c : AnkiClient) (i : Nat) (s : PageState) :
      Reachable tr s →
      (∀ sess, s.session = some sess → i < sess.cardList.length) →
      Reachable tr (jumpToCard c i s)
  | suspend (c : AnkiClient) (s : PageState) :
      Reachable tr s → Reachable tr (suspendCard c s)
  | bury (c : AnkiClient) (s : PageState) :
      Reachable tr s → Reachable tr (buryCard c s)
  | flag (c : AnkiClient) (f : Nat) (s : PageState) :
      Reachable tr s → Reachable tr (toggleFlag tr c f s)
  | endS (s : PageState) : Reachable tr s → Reachable tr (endSession s)

theorem pageInvariant_initial : PageInvariant initialPage := by
  intro sess h
  simp [initialPage] at h

theorem pageInvariant_start {tr c q s} (hlen : ClientLenOk c)
    (hs : PageInvariant s) : PageInvariant (startSession tr c q s) := by
  intro sess hsess
  simp only [startSession] at hsess
  split at hsess
  · exact hs sess hsess
  · split at hsess
    · exact hs sess hsess
    · split at hsess
      · exact hs sess hsess
      · split at hsess
        · exact hs sess hsess
        · rename_i hdueNe
          split at hsess
          · exact hs sess hsess
          · rename_i allCardsInfo hinfos
            simp only [Option.some.injEq] at hsess
            subst hsess
            constructor
            · simpa [List.length_map] using hlen _ _ hinfos
            · intro _
              exact Nat.pos_of_ne_zero hdueNe

theorem pageInvariant_reveal {s} (hs : PageInvariant s) :
    PageInvariant (revealAnswer s) := by
  intro sess hsess
  simp only [revealAnswer] at hsess
  split at hsess
  · exact hs sess hsess
  · rename_i sess0 h0
    simp only [Option.some.injEq] at hsess
    subst hsess
    obtain ⟨h1, h2⟩ := hs sess0 h0
    exact ⟨h1, h2⟩

theorem pageInvariant_answer {c ease s} (hs : PageInvariant s) :
    PageInvariant (answerCard c ease s).1 := by
  intro sess hsess
  simp only [answerCard] at hsess
  split at hsess
  · exact hs sess hsess
  · rename_i sess0 h0
    split at hsess
    · exact hs sess hsess
    · split at hsess
      · exact hs sess hsess
      · split at hsess
        · rename_i hlt
          split at hsess
          · exact hs sess hsess
          · simp only [Option.some.injEq] at hsess
            subst hsess
            obtain ⟨h1, _⟩ := hs sess0 h0
            exact ⟨h1, fun _ => hlt⟩
        · simp only [Option.some.injEq] at hsess
          subst hsess
          obtain ⟨h1, _⟩ := hs sess0 h0
          exact ⟨h1, by simp⟩

theorem pageInvariant_jump {c i s} (hs : PageInvariant s)
    (hij : ∀ sess, s.session = some sess → i < sess.cardList.length) :
    PageInvariant (jumpToCard c i s) := by
  intro sess hsess
  simp only [jumpToCard] at hsess
  split at hsess
  · exact hs sess hsess
  · rename_i sess0 h0
    split at hsess
    · exact hs sess hsess
    · split at hsess
      · exact hs sess hsess
      · simp only [Option.some.injEq] at hsess
        subst hsess
        obtain ⟨h1, _⟩ := hs sess0 h0
        exact ⟨h1, fun _ => h1 ▸ hij sess0 h0⟩

theorem pageInvariant_advanceAfter {c sess s} (hsess : s.session = some sess)
    (hs : PageInvariant s) : PageInvariant (advanceAfter c sess s) := by
  intro sess' hsess'
  simp only [advanceAfter] at hsess'
  split at hsess'
  · rename_i hlt
    split at hsess'
    · exact hs sess' hsess'
    · simp only [Option.some.injEq] at hsess'
      subst hsess'
      obtain ⟨h1, _⟩ := hs sess hsess
      exact ⟨h1, fun _ => hlt⟩
  · simp only [Option.some.injEq] at hsess'
    subst hsess'
    obtain ⟨h1, _⟩ := hs sess hsess
    exact ⟨h1, by simp⟩

theorem pageInvariant_suspend {c s} (hs : PageInvariant s) :
    PageInvariant (suspendCard c s) := by
  intro sess hsess
  simp only [suspendCard] at hsess
  split at hsess
  · exact hs sess hsess
  · rename_i sess0 h0
    split at hsess
    · exact hs sess hsess
    · split at hsess
      · exact hs sess hsess
      · exact pageInvariant_advanceAfter h0 hs sess hsess

theorem pageInvariant_bury {c s} (hs : PageInvariant s) :
    PageInvariant (buryCard c s) := by
  intro sess hsess
  simp only [buryCard] at hsess
  split at hsess
  · exact hs sess hsess
  · rename_i sess0 h0
    split at hsess
    · exact hs sess hsess
    · split at hsess
      · exact hs sess hsess
      · exact pageInvariant_advanceAfter h0 hs sess hsess

theorem pageInvariant_flag {tr c f s} (hs : PageInvariant s) :
    PageInvariant (toggleFlag tr c f s) := by
  intro sess hsess
  simp only [toggleFlag] at hsess
  split at hsess
  · exact hs sess hsess
  · rename_i sess0 h0
    split at hsess
    · exact hs sess hsess
    · rename_i card0 hc0
      split at hsess
      · exact hs sess hsess
      · split at hsess
        · exact hs sess hsess
        · simp only [Option.some.injEq] at hsess
          subst hsess
          obtain ⟨h1, h2⟩ := hs sess0 h0
          exact ⟨h1, fun _ => h2 (by simp [hc0])⟩

theorem pageInvariant_end {s} (_ : PageInvariant s) :
    PageInvariant (endSession s) := by
  intro sess hsess
  simp [endSession] at hsess

/-- Every reachable page state satisfies the session invariant. -/
theorem reachable_pageInvariant {tr s} (h : Reachable tr s) :
    PageInvariant s := by
  induction h with
  | init => exact pageInvariant_initial
  | start c q s _ hlen ih => exact pageInvariant_start hlen ih
  | reveal s _ ih => exact pageInvariant_reveal ih
  | answer c ease s _ ih => exact pageInvariant_answer ih
  | jump c i s _ hij ih => exact pageInvariant_jump ih hij
  | suspend c s _ ih => exact pageInvariant_suspend ih
  | bury c s _ ih => exact pageInvariant_bury ih
  | flag c f s _ ih => exact pageInvariant_flag ih
  | endS s _ ih => exact pageInvariant_end ih

/-- The stats bump of `answerCard` written out per ease bucket. -/
theorem bumpStats_eq {ease : Nat} (st : SessionStats) (h1 : 1 ≤ ease)
    (h4 : ease ≤ 4) :
    bumpStats ease st =
      { total := st.total
        studied := st.studied + 1
        again := if ease = 1 then st.again + 1 else st.again
        hard := if ease = 2 then st.hard + 1 else st.hard
        good := if ease = 3 then st.good + 1 else st.good
        easy := if ease = 4 then st.easy + 1 else st.easy } := by
  interval_cases ease <;> simp [bumpStats]

/-! ## Concrete sample data used by the witnesses -/

/-- A concrete snapshot for card id `n`. -/
def sampleCard (n : Nat) : CardInfo :=
  { cardId := n, question := "Q", answer := "A", frontSide := "",
    backSide := "",
    fields := [("Front", { order := 0, value := "<b>Paris</b>" })] }

/-- A well-behaved concrete engine: two matching due cards 101 and 102. -/
def sampleClient : AnkiClient :=
  { findCards := fun _ => .ok [101, 102]
    areDue := fun ids => .ok (ids.map (fun _ => true))
    cardsInfo := fun ids => .ok (ids.map (fun id? => sampleCard (id?.getD 0)))
    answerCardsCall := fun _ => .ok ()
    suspendCardsCall := fun _ => .ok ()
    buryCardsCall := fun _ => .ok ()
    setCardFlagCall := fun _ _ => .ok ()
    retrieveMediaFile := fun _ => .ok none }

theorem sampleClient_lenOk : ClientLenOk sampleClient := by
  intro ids r h
  simp only [sampleClient, Except.ok.injEq] at h
  simp [← h]

/-- A concrete mid-session page: reviewing card 101 of queue [101, 102]
with the answer shown. -/
def sampleSession : StudySessionState :=
  { query := "is:due"
    cardQueue := [101, 102]
    cardList := [{ cardId := 101, sortField := "Paris" },
                 { cardId := 102, sortField := "Paris" }]
    currentIndex := 0
    currentCard := some (sampleCard 101)
    showAnswer := true
    answeredCardIds := ∅
    sessionStats :=
      { total := 2, studied := 0, again := 0, hard := 0, good := 0,
        easy := 0 } }

def samplePage : PageState :=
  { isSessionActive := true, session := some sampleSession, error := none }

/-- Like `sampleSession` but positioned on the last queue entry. -/
def sampleSessionLast : StudySessionState :=
  { sampleSession with
    currentIndex := 1
    currentCard := some (sampleCard 102) }

def samplePageLast : PageState :=
  { samplePage with session := some sampleSessionLast }

/-! ## Content resolver: regex scanning primitives

The resolver (`CardContent` in the source) matches card HTML against three
global regexes: `/\[sound:([^\]]+)\]/g`, the case-insensitive
`src=["']([^"']+\.(mp3|wav|ogg|m4a|flac|aac))["']` pattern, and the bare
token pattern `([a-zA-Z0-9_-]+\.(mp3|wav|ogg|m4a|flac|aac))` (also
case-insensitive), plus `/\[anki:play:([qa]):(\d+)\]/g`.  Each is embedded
as a left-to-right scanner: a failed match attempt advances one character,
a successful one resumes after the matched text, exactly like a JS global
regex. -/

/-- Drop an exact literal from the front, or fail. -/
def dropLit : List Char → List Char → Option (List Char)
  | [], cs => some cs
  | _ :: _, [] => none
  | p :: ps, c :: cs => if c = p then dropLit ps cs else none

theorem dropLit_length {ps cs r : List Char} (h : dropLit ps cs = some r) :
    r.length + ps.length = cs.length := by
  induction ps generalizing cs with
  | nil => simp [dropLit] at h; simp [h]
  | cons p ps ih =>
    cases cs with
    | nil => simp [dropLit] at h
    | cons c cs =>
      by_cases hc : c = p
      · simp only [dropLit, if_pos hc] at h
        have := ih h
        simp [List.length_cons]
        omega
      · simp [dropLit, hc] at h

/-- Drop a literal from the front comparing case-insensitively
(the `i` regex flag). -/
def dropLitCI : List Char → List Char → Option (List Char)
  | [], cs => some cs
  | _ :: _, [] => none
  | p :: ps, c :: cs => if c.toLower = p.toLower then dropLitCI ps cs else none

theorem dropLitCI_length {ps cs r : List Char}
    (h : dropLitCI ps cs = some r) : r.length + ps.length = cs.length := by
  induction ps generalizing cs with
  | nil => simp [dropLitCI] at h; simp [h]
  | cons p ps ih =>
    cases cs with
    | nil => simp [dropLitCI] at h
    | cons c cs =>
      by_cases hc : c.toLower = p.toLower
      · simp only [dropLitCI, if_pos hc] at h
        have := ih h
        simp [List.length_cons]
        omega
      · simp [dropLitCI, hc] at h

/-- The character class `[a-zA-Z0-9_-]`. -/
def wordChar (c : Char) : Bool :=
  c.isAlpha || c.isDigit || c = '_' || c = '-'

/-- The known audio extensions `mp3|wav|ogg|m4a|flac|aac`, in the
alternation order of the source regexes. -/
def audioExts : List (List Char) :=
  ["mp3", "wav", "ogg", "m4a", "flac", "aac"].map String.data

/-- A double or single quote (the class `["']`). -/
def quoteChar (c : Char) : Bool := c = '"' || c = squote

/-- One attempt of `/\[sound:([^\]]+)\]/` at the head of the input:
on success, the full matched text, the capture (the filename), and the
rest of the input after the closing bracket. -/
def matchSoundAt (cs : List Char) :
    Option (List Char × List Char × List Char) :=
  match dropLit "[sound:".data cs with
  | none => none
  | some afterLit =>
    match afterLit.dropWhile (fun c => !(c == ']')) with
    | [] => none
    | _ :: remaining =>
      if afterLit.takeWhile (fun c => !(c == ']')) = [] then none
      else
        some ("[sound:".data ++ afterLit.takeWhile (fun c => !(c == ']')) ++
            [']'],
          afterLit.takeWhile (fun c => !(c == ']')), remaining)

theorem matchSoundAt_remaining_lt {cs f cap r : List Char}
    (h : matchSoundAt cs = some (f, cap, r)) : r.length < cs.length := by
  unfold matchSoundAt at h
  split at h
  · exact absurd h (by simp)
  · rename_i afterLit hd
    split at h
    · exact absurd h (by simp)
    · rename_i x xs hw
      split at h
      · exact absurd h (by simp)
      · simp only [Option.some.injEq, Prod.mk.injEq] at h
        obtain ⟨-, -, hr⟩ := h
        subst hr
        have hlen := dropLit_length hd
        have h2 : (afterLit.dropWhile (fun c => !(c == ']'))).length ≤
            afterLit.length := (List.dropWhile_suffix _).length_le
        rw [hw] at h2
        simp only [List.length_cons] at h2
        have h7 : ("[sound:".data).length = 7 := rfl
        rw [h7] at hlen
        omega

/-- Does the quoted run end in `.` plus a known audio extension
(case-insensitively), with at least one character before the dot?  This
characterises exactly when the backtracking pattern `[^"']+\.(mp3|...)`
followed by a closing quote matches the whole run. -/
def runEndsWithExt (run : List Char) : Bool :=
  audioExts.any (fun e =>
    decide (e.length + 2 ≤ run.length) &&
      ((run.map Char.toLower).drop (run.length - (e.length + 1)) == '.' :: e))

/-- One attempt of the case-insensitive
`src=["']([^"']+\.(ext))["']` pattern at the head of the input:
on success, the capture (the quoted run) and the rest after the closing
quote. -/
def matchSrcAt (cs : List Char) : Option (List Char × List Char) :=
  match dropLitCI "src=".data cs with
  | none => none
  | some afterEq =>
    match afterEq with
    | [] => none
    | q :: rest2 =>
      if quoteChar q then
        match rest2.dropWhile (fun c => !quoteChar c) with
        | [] => none
        | _ :: remaining =>
          if runEndsWithExt (rest2.takeWhile (fun c => !quoteChar c)) then
            some (rest2.takeWhile (fun c => !quoteChar c), remaining)
          else none
      else none

theorem matchSrcAt_remaining_lt {cs cap r : List Char}
    (h : matchSrcAt cs = some (cap, r)) : r.length < cs.length := by
  unfold matchSrcAt at h
  split at h
  · exact absurd h (by simp)
  · rename_i afterEq hd
    split at h
    · exact absurd h (by simp)
    · rename_i q rest2
      split at h
      · rename_i hq
        split at h
        · exact absurd h (by simp)
        · rename_i x xs hw
          split at h
          · rename_i he
            simp only [Option.some.injEq, Prod.mk.injEq] at h
            obtain ⟨-, hr⟩ := h
            subst hr
            have hlen := dropLitCI_length hd
            have h2 : (rest2.dropWhile (fun c => !quoteChar c)).length ≤
                rest2.length := (List.dropWhile_suffix _).length_le
            rw [hw] at h2
            simp only [List.length_cons] at h2
            have h4 : ("src=".data).length = 4 := rfl
            rw [h4] at hlen
            simp only [List.length_cons] at hlen
            omega
          · exact absurd h (by simp)
      · exact absurd h (by simp)

/-- The first extension of the alternation that literally (and
case-insensitively) heads the input, if any. -/
def extHere (cs : List Char) : Option (List Char) :=
  audioExts.find? (fun e => (cs.take e.length).map Char.toLower == e)

/-- One attempt of the bare-token pattern
`([a-zA-Z0-9_-]+\.(ext))` at the head of the input: the capture keeps the
original casing; the match has no trailing delimiter, so the scan resumes
right after the extension. -/
def matchFileAt (cs : List Char) : Option (List Char × List Char) :=
  match cs with
  | [] => none
  | c :: _ =>
    if wordChar c then
      match cs.dropWhile wordChar with
      | [] => none
      | d :: after2 =>
        if d = '.' then
          match extHere after2 with
          | some e =>
            some (cs.takeWhile wordChar ++ '.' :: after2.take e.length,
              after2.drop e.length)
          | none => none
        else none
    else none

theorem matchFileAt_remaining_lt {cs cap r : List Char}
    (h : matchFileAt cs = some (cap, r)) : r.length < cs.length := by
  unfold matchFileAt at h
  split at h
  · exact absurd h (by simp)
  · rename_i c rest
    split at h
    · split at h
      · exact absurd h (by simp)
      · rename_i d after2 hdw
        split at h
        · split at h
          · rename_i e he
            simp only [Option.some.injEq, Prod.mk.injEq] at h
            obtain ⟨-, hr⟩ := h
            subst hr
            have h2 : ((c :: rest).dropWhile wordChar).length ≤
                (c :: rest).length := (List.dropWhile_suffix _).length_le
            rw [hdw] at h2
            have h3 : (after2.drop e.length).length = after2.length - e.length :=
              List.length_drop _ _
            simp only [List.length_cons] at h2 ⊢
            omega
          · exact absurd h (by simp)
        · exact absurd h (by simp)
    · exact absurd h (by simp)

/-- One attempt of `/\[anki:play:([qa]):(\d+)\]/` at the head of the
input: the full match, the side character, the digit run, and the rest. -/
def matchAnkiPlayAt (cs : List Char) :
    Option (List Char × Char × List Char × List Char) :=
  match dropLit "[anki:play:".data cs with
  | none => none
  | some rest1 =>
    match rest1 with
    | [] => none
    | sideC :: rest1a =>
      if sideC = 'q' ∨ sideC = 'a' then
        match rest1a with
        | [] => none
        | colonC :: rest2 =>
          if colonC = ':' then
            if rest2.takeWhile Char.isDigit = [] then none
            else
              match rest2.dropWhile Char.isDigit with
              | [] => none
              | bracketC :: remaining =>
                if bracketC = ']' then
                  some ("[anki:play:".data ++ sideC :: ':' ::
                      rest2.takeWhile Char.isDigit ++ [']'],
                    sideC, rest2.takeWhile Char.isDigit, remaining)
                else none
          else none
      else none

theorem matchAnkiPlayAt_remaining_lt {cs f ds r : List Char} {sc : Char}
    (h : matchAnkiPlayAt cs = some (f, sc, ds, r)) : r.length < cs.length := by
  unfold matchAnkiPlayAt at h
  split at h
  · exact absurd h (by simp)
  · rename_i rest1 hd
    split at h
    · exact absurd h (by simp)
    · rename_i sideC rest1a
      split at h
      · split at h
        · exact absurd h (by simp)
        · rename_i colonC rest2
          split at h
          · split at h
            · exact absurd h (by simp)
            · split at h
              · exact absurd h (by simp)
              · rename_i bracketC remaining hw
                split at h
                · simp only [Option.some.injEq, Prod.mk.injEq] at h
                  obtain ⟨-, -, -, hr⟩ := h
                  subst hr
                  have hlen := dropLit_length hd
                  have h2 : (rest2.dropWhile Char.isDigit).length ≤
                      rest2.length := (List.dropWhile_suffix _).length_le
                  rw [hw] at h2
                  simp only [List.length_cons] at h2
                  have h11 : ("[anki:play:".data).length = 11 := rfl
                  rw [h11] at hlen
                  simp only [List.length_cons] at hlen
                  omega
                · exact absurd h (by simp)
          · exact absurd h (by simp)
      · exact absurd h (by simp)

/-! ## The four global scanners

Each scanner is structurally recursive on a fuel argument (one unit per
consumed character; the wrappers supply the input length, which every
step stays under), keeping the definitions kernel-computable. -/

/-- All matches of `/\[sound:([^\]]+)\]/g`: (full match, capture) pairs,
scanning left to right, resuming after each match. -/
def soundScanF : Nat → List Char → List (List Char × List Char)
  | 0, _ => []
  | _, [] => []
  | fuel + 1, c :: rest =>
    match matchSoundAt (c :: rest) with
    | some (full, cap, remaining) => (full, cap) :: soundScanF fuel remaining
    | none => soundScanF fuel rest

def soundScan (cs : List Char) : List (List Char × List Char) :=
  soundScanF cs.length cs

/-- All captures of the tagged source-attribute pattern. -/
def srcScanF : Nat → List Char → List (List Char)
  | 0, _ => []
  | _, [] => []
  | fuel + 1, c :: rest =>
    match matchSrcAt (c :: rest) with
    | some (cap, remaining) => cap :: srcScanF fuel remaining
    | none => srcScanF fuel rest

def srcScan (cs : List Char) : List (List Char) :=
  srcScanF cs.length cs

/-- All captures of the bare audio-filename token pattern. -/
def fileScanF : Nat → List Char → List (List Char)
  | 0, _ => []
  | _, [] => []
  | fuel + 1, c :: rest =>
    match matchFileAt (c :: rest) with
    | some (cap, remaining) => cap :: fileScanF fuel remaining
    | none => fileScanF fuel rest

def fileScan (cs : List Char) : List (List Char) :=
  fileScanF cs.length cs

/-- All matches of `/\[anki:play:([qa]):(\d+)\]/g`:
(full match, side, digit run). -/
def ankiPlayScanF : Nat → List Char → List (List Char × Char × List Char)
  | 0, _ => []
  | _, [] => []
  | fuel + 1, c :: rest =>
    match matchAnkiPlayAt (c :: rest) with
    | some (full, sideC, ds, remaining) =>
      (full, sideC, ds) :: ankiPlayScanF fuel remaining
    | none => ankiPlayScanF fuel rest

def ankiPlayScan (cs : List Char) : List (List Char × Char × List Char) :=
  ankiPlayScanF cs.length cs

/-- `parseInt` on a run of decimal digits. -/
def digitsToNat (ds : List Char) : Nat :=
  ds.foldl (fun n c => n * 10 + (c.toNat - 48)) 0

/-- String-level `matchAll` for `[sound:...]`: (full match, filename). -/
def soundDirectives (s : String) : List (String × String) :=
  (soundScan s.data).map (fun p => (⟨p.1⟩, ⟨p.2⟩))

/-- String-level captures of the `src=` pattern. -/
def srcCaptures (s : String) : List String :=
  (srcScan s.data).map (fun l => (⟨l⟩ : String))

/-- String-level captures of the bare-token pattern. -/
def fileCaptures (s : String) : List String :=
  (fileScan s.data).map (fun l => (⟨l⟩ : String))

/-- String-level `matchAll` for `[anki:play:s:n]`:
(full match, side as a string, parsed index). -/
def ankiPlayDirectives (s : String) : List (String × String × Nat) :=
  (ankiPlayScan s.data).map
    (fun t => ((⟨t.1⟩ : String), String.singleton t.2.1, digitsToNat t.2.2))

/-! ## Filename helpers -/

/-- `src.split("/").pop() || src`: the part after the last slash, or the
whole string when that part is empty (JS falsiness of `""`). -/
def jsSplitPop (s : String) : String :=
  let p := lastSeg '/' s.data
  if p = [] then s else ⟨p⟩

/-- The fixed extension → MIME table of `getMimeType`. -/
def mimeTypes : List (String × String) :=
  [("mp3", "audio/mpeg"), ("wav", "audio/wav"), ("ogg", "audio/ogg"),
   ("m4a", "audio/mp4"), ("flac", "audio/flac"), ("aac", "audio/aac"),
   ("jpg", "image/jpeg"), ("jpeg", "image/jpeg"), ("png", "image/png"),
   ("gif", "image/gif"), ("webp", "image/webp"), ("svg", "image/svg+xml")]

/-- `getMimeType(filename)`: the extension is `filename.split(".").pop()`
lower-cased; unknown extensions (and the empty one) fall back to
`application/octet-stream`. -/
def getMimeType (filename : String) : String :=
  let ext := (lastSeg '.' filename.data).map Char.toLower
  match mimeTypes.find? (fun p => p.1.data = ext) with
  | some p => p.2
  | none => "application/octet-stream"

/-! ## extractAudioFilename (`ThemeSwitcher.tsx` lines 215–273) -/

/-- The `htmlSources` collection of `extractAudioFilename`, joined with
`" "`: the side-selected face, the side-selected rendered face, then
every field value. -/
def combinedHtmlOf (card : CardInfo) (side : String) : String :=
  String.intercalate " "
    ([if side = "q" then card.question else card.answer,
      if side = "q" then card.frontSide else card.backSide] ++
      card.fields.map (fun f => f.2.value))

/-- The indexed-directive resolver: over the side-selected combined text
it takes the `index`-th capture of the first scanner class that has one:
bracketed sound directives, then `src=` attributes with audio extensions
(reduced to a basename), then bare filename tokens. -/
def extractAudioFilename (card : CardInfo) (side : String) (index : Nat) :
    Option String :=
  let combinedHtml := combinedHtmlOf card side
  match (soundDirectives combinedHtml).get? index with
  | some m => some m.2
  | none =>
    match (srcCaptures combinedHtml).get? index with
    | some src => some (jsSplitPop src)
    | none =>
      match (fileCaptures combinedHtml).get? index with
      | some filename => some filename
      | none => none

/-- The resolver exactly as claim C5 words it: the combined text is the
question, the answer, the front face, the back face **and** all field
values, concatenated in that fixed order (independently of the side),
searched with the same class priority. -/
def claimExtractAudioFilename (card : CardInfo) (side : String)
    (index : Nat) : Option String :=
  let combinedHtml := String.intercalate " "
    ([card.question, card.answer, card.frontSide, card.backSide] ++
      card.fields.map (fun f => f.2.value))
  let _ := side
  match (soundDirectives combinedHtml).get? index with
  | some m => some m.2
  | none =>
    match (srcCaptures combinedHtml).get? index with
    | some src => some (jsSplitPop src)
    | none =>
      match (fileCaptures combinedHtml).get? index with
      | some filename => some filename
      | none => none

/-- Claim C5 as amended: same class priority and `n`-th-occurrence search,
but over the side-selected combined text actually used by the code. -/
def amendedExtractAudioFilename (card : CardInfo) (side : String)
    (index : Nat) : Option String :=
  let combinedHtml := combinedHtmlOf card side
  (((soundDirectives combinedHtml).get? index).map (fun m => m.2)).orElse
    (fun _ =>
      (((srcCaptures combinedHtml).get? index).map jsSplitPop).orElse
        (fun _ => (fileCaptures combinedHtml).get? index))

/-! ## createAudioButton and directive substitution -/

/-- The pieces of the audio-button template literal
(`ThemeSwitcher.tsx` lines 178–206); `\x27` is an apostrophe. -/
def btnPartA : String :=
  "\n            <span class=\"anki-audio-button\" style=\"display: inline-flex; align-items: center; gap: 4px; margin: 0 4px;\">\n              <button\n                onclick=\"document.getElementById(\x27"

def btnPartB : String :=
  "\x27).play()\"\n                style=\"\n                  display: inline-flex;\n                  align-items: center;\n                  justify-content: center;\n                  width: 28px;\n                  height: 28px;\n                  padding: 4px;\n                  background: var(--accent-9);\n                  color: white;\n                  border: none;\n                  border-radius: 4px;\n                  cursor: pointer;\n                  transition: background 0.2s;\n                \"\n                onmouseover=\"this.style.background=\x27var(--accent-10)\x27\"\n                onmouseout=\"this.style.background=\x27var(--accent-9)\x27\"\n                title=\""

def btnPartC : String :=
  "\"\n              >\n                <svg width=\"15\" height=\"15\" viewBox=\"0 0 15 15\" fill=\"none\" xmlns=\"http://www.w3.org/2000/svg\">\n                  <path d=\"M8 1.5C8 1.22386 7.77614 1 7.5 1C7.22386 1 7 1.22386 7 1.5V13.5C7 13.7761 7.22386 14 7.5 14C7.77614 14 8 13.7761 8 13.5V1.5ZM10 3.5C10 3.22386 9.77614 3 9.5 3C9.22386 3 9 3.22386 9 3.5V11.5C9 11.7761 9.22386 12 9.5 12C9.77614 12 10 11.7761 10 11.5V3.5ZM12.5 5C12.7761 5 13 5.22386 13 5.5V9.5C13 9.77614 12.7761 10 12.5 10C12.2239 10 12 9.77614 12 9.5V5.5C12 5.22386 12.2239 5 12.5 5ZM6 5.5C6 5.22386 5.77614 5 5.5 5C5.22386 5 5 5.22386 5 5.5V9.5C5 9.77614 5.22386 10 5.5 10C5.77614 10 6 9.77614 6 9.5V5.5ZM3.5 7C3.77614 7 4 7.22386 4 7.5V7.5C4 7.77614 3.77614 8 3.5 8C3.22386 8 3 7.77614 3 7.5V7.5C3 7.22386 3.22386 7 3.5 7Z\" fill=\"currentColor\" fill-rule=\"evenodd\" clip-rule=\"evenodd\"></path>\n                </svg>\n              </button>\n              <audio id=\""

def btnPartD : String := "\" src=\"data:"

def btnPartE : String := ";base64,"

def btnPartF : String :=
  "\" preload=\"auto\" style=\"display: none;\"></audio>\n            </span>\n          "

/-- The interactive control returned on a successful fetch: a clickable
trigger paired with a hidden playable element carrying the data URL. -/
def buttonHtml (audioId mimeType base64Data filename : String) : String :=
  btnPartA ++ (audioId ++ (btnPartB ++ (filename ++ (btnPartC ++ (audioId ++
    (btnPartD ++ (mimeType ++ (btnPartE ++ (base64Data ++ btnPartF)))))))))

/-- The inert fallback label `[filename]` rendered when the asset could
not be fetched. -/
def plainLabel (filename : String) : String :=
  "<span style=\"color: var(--gray-10); font-size: 0.9em;\">[" ++
    (filename ++ "]</span>")

/-- The per-render resolver state: the per-filename memo cache
(`audioCache`) and a counter feeding the id generator that stands in for
`Math.random()`. -/
structure ResolveSt where
  cache : List (String × String)
  nextId : Nat
deriving DecidableEq, Repr

/-- The empty resolver state of a fresh component instance. -/
def initialResolveSt : ResolveSt := { cache := [], nextId := 0 }

/-- `audioCache.current.get(filename)`. -/
def lookupCache (cache : List (String × String)) (k : String) :
    Option String :=
  (cache.find? (fun p => p.1 = k)).map (fun p => p.2)

/-- `createAudioButton(filename)`: consult the memo cache, fetch on a
miss (`!base64Data` also treats an empty cached string as a miss), cache
a truthy fetched value, and return the interactive control when truthy
data is at hand, the plain label otherwise (thrown fetch, null result, or
empty string).  `idGen` models the random id source. -/
def createAudioButton (retrieve : String → Except String (Option String))
    (idGen : Nat → String) (st : ResolveSt) (filename : String) :
    String × ResolveSt :=
  let cached := (lookupCache st.cache filename).getD ""
  if cached = "" then
    match retrieve filename with
    | .error _ => (plainLabel filename, st)
    | .ok dataOpt =>
      let d := dataOpt.getD ""
      if d = "" then (plainLabel filename, st)
      else
        (buttonHtml (idGen st.nextId) (getMimeType filename) d filename,
         { cache := (filename, d) :: st.cache, nextId := st.nextId + 1 })
  else
    (buttonHtml (idGen st.nextId) (getMimeType filename) cached filename,
     { st with nextId := st.nextId + 1 })

/-- `content.replace(original, replacement)` for a literal pattern:
replace the first occurrence only. -/
def replaceFirstAux (pat rep l : List Char) : List Char :=
  if pat.isPrefixOf l then rep ++ l.drop pat.length
  else
    match l with
    | [] => []
    | c :: rest => c :: replaceFirstAux pat rep rest

def replaceFirst (pat rep s : String) : String :=
  ⟨replaceFirstAux pat.data rep.data s.data⟩

/-- The directive-substitution phase of `processContent`: collect
replacements for every `[sound:...]` match, then for every
`[anki:play:...]` match whose filename can be recovered (when a card
snapshot is available), and apply them in order, each replacing the first
occurrence of its matched text. -/
def processDirectives (retrieve : String → Except String (Option String))
    (card? : Option CardInfo) (idGen : Nat → String) (st0 : ResolveSt)
    (content : String) : String × ResolveSt :=
  let step1 := (soundDirectives content).foldl
    (fun (acc : List (String × String) × ResolveSt) m =>
      let r := createAudioButton retrieve idGen acc.2 m.2
      (acc.1 ++ [(m.1, r.1)], r.2))
    ([], st0)
  let step2 := (ankiPlayDirectives content).foldl
    (fun (acc : List (String × String) × ResolveSt) m =>
      match card? with
      | none => acc
      | some ci =>
        match extractAudioFilename ci m.2.1 m.2.2 with
        | none => acc
        | some fn =>
          let r := createAudioButton retrieve idGen acc.2 fn
          (acc.1 ++ [(m.1, r.1)], r.2))
    step1
  (step2.1.foldl (fun content2 rep => replaceFirst rep.1 rep.2 content2)
    content, step2.2)

/-! ## Substring search (used to state what resolved markup contains) -/

/-- Is `sub` a contiguous substring of `l`? -/
def hasSub (l sub : List Char) : Bool :=
  match l with
  | [] => sub.isEmpty
  | c :: rest => sub.isPrefixOf (c :: rest) || hasSub rest sub

/-- String-level substring test. -/
def containsStr (s sub : String) : Bool := hasSub s.data sub.data

/-! ## Inline `<audio>`/`<img>` source rewriting
(`ThemeSwitcher.tsx` lines 109–157)

The DOM loop is modelled per element: `resolveMediaSrc` maps the `src`
attribute value of one `<audio>` or `<img>` element to its value after
`processContent` ran (absent attributes never reach this point because of
the `if (!src) continue` guard, which also skips empty strings). -/

/-- The fate of one element's `src` attribute: falsy (empty) sources and
`http`/`data:` prefixes are skipped; otherwise the basename (or, if that
is empty, the whole source) is fetched and, only on success, the
attribute becomes a data URL. -/
def resolveMediaSrc (retrieve : String → Except String (Option String))
    (src : String) : String :=
  if src = "" then src
  else if startsWithLit "http" src || startsWithLit "data:" src then src
  else
    let filename := jsSplitPop src
    match retrieve filename with
    | .error _ => src
    | .ok base64Data? =>
      if base64Data?.getD "" = "" then src
      else
        "data:" ++ getMimeType filename ++ ";base64," ++ base64Data?.getD ""

/-- Claim C10 as worded: untouched **exactly** when the source starts
with `http` or `data:`; every other source is fetched under the substring
after the last `/`. -/
def claimResolveMediaSrc (retrieve : String → Except String (Option String))
    (src : String) : String :=
  if startsWithLit "http" src || startsWithLit "data:" src then src
  else
    let filename : String := ⟨lastSeg '/' src.data⟩
    match retrieve filename with
    | .error _ => src
    | .ok none => src
    | .ok (some base64Data) =>
      "data:" ++ getMimeType filename ++ ";base64," ++ base64Data

/-- Claim C10 as amended: empty sources are also skipped, and when the
substring after the last `/` is empty the whole source string is used as
the fetched filename. -/
def amendedResolveMediaSrc
    (retrieve : String → Except String (Option String)) (src : String) :
    String :=
  if src = "" || startsWithLit "http" src || startsWithLit "data:" src then src
  else
    let tail : String := ⟨lastSeg '/' src.data⟩
    let filename := if tail = "" then src else tail
    match retrieve filename with
    | .error _ => src
    | .ok base64Data? =>
      if base64Data?.getD "" = "" then src
      else
        "data:" ++ getMimeType filename ++ ";base64," ++ base64Data?.getD ""

/-! ## Sequential auto-play (`ThemeSwitcher.tsx` lines 278–318)

The auto-play effect walks the playable elements in document order and
awaits, for each, a promise resolved by its `ended` event, its `error`
event, or a rejected `play()` call.  The environment's choice for each
element is a `PlayOutcome`; the loop's observable behaviour is the event
trace it generates. -/

inductive PlayOutcome
  | ended
  | errorEvent
  | playFailed
deriving DecidableEq, Repr, Inhabited

inductive PlayEvent
  | playStarted (i : Nat)
  | finished (i : Nat) (o : PlayOutcome)
deriving DecidableEq, Repr

/-- The trace of the await-per-element loop starting at element `i`:
`play()` is invoked, then the loop blocks until the element's outcome
fires, then the next element is handled. -/
def playQueueFrom (i : Nat) : List PlayOutcome → List PlayEvent
  | [] => []
  | o :: rest =>
    PlayEvent.playStarted i :: PlayEvent.finished i o :: playQueueFrom (i + 1) rest

/-- The full auto-play trace over the elements in document order. -/
def playQueue (outs : List PlayOutcome) : List PlayEvent :=
  playQueueFrom 0 outs

/-! ## The process-wide models cache (`useAnkiConnect.ts` lines 269–345)

`loadModels` is modelled as an interleaving of atomic steps over a world
holding the module-level `modelsCache`, a fetch counter, and one local
hook state per consumer.  `callLoad i` is consumer `i` running the guard
at the top of `loadModels` and, if it passes, issuing the model fetch;
`completeOk`/`completeErr` is the continuation after that fetch
resolves/rejects. -/

structure ModelsState where
  models : List (Nat × String)
  modelNameToId : List (String × Nat)
  isLoading : Bool
  error : Option String
  initialized : Bool
deriving DecidableEq, Repr

/-- The initial hook state (also the default when the cache is unset). -/
def emptyModelsState : ModelsState :=
  { models := [], modelNameToId := [], isLoading := false, error := none,
    initialized := false }

inductive LoadPhase
  | idle
  | inFlight
  | done
deriving DecidableEq, Repr

structure CallerSt where
  modelsState : ModelsState
  phase : LoadPhase
deriving DecidableEq, Repr

structure ModelsWorld where
  modelsCache : Option ModelsState
  fetchCount : Nat
  callers : List CallerSt
deriving DecidableEq, Repr

inductive CacheEv
  | callLoad (i : Nat)
  | completeOk (i : Nat) (models : List (Nat × String))
      (nameToId : List (String × Nat))
  | completeErr (i : Nat) (msg : String)
deriving DecidableEq, Repr

/-- One atomic step.  The guard of `loadModels` is exactly
`modelsState.initialized || modelsCache?.initialized`: nothing about an
in-flight fetch is consulted. -/
def stepModels (w : ModelsWorld) (ev : CacheEv) : ModelsWorld :=
  match ev with
  | .callLoad i =>
    match w.callers.get? i with
    | none => w
    | some caller =>
      if caller.modelsState.initialized ||
          (w.modelsCache.map (fun m => m.initialized)).getD false then w
      else
        { w with
          fetchCount := w.fetchCount + 1
          callers := w.callers.set i
            { caller with
              modelsState := { caller.modelsState with isLoading := true }
              phase := .inFlight } }
  | .completeOk i models nameToId =>
    match w.callers.get? i with
    | none => w
    | some caller =>
      if caller.phase = .inFlight then
        let newState : ModelsState :=
          { models := models, modelNameToId := nameToId, isLoading := false,
            error := none, initialized := true }
        { w with
          modelsCache := some newState
          callers := w.callers.set i
            { modelsState := newState, phase := .done } }
      else w
  | .completeErr i msg =>
    match w.callers.get? i with
    | none => w
    | some caller =>
      if caller.phase = .inFlight then
        { w with
          callers := w.callers.set i
            { caller with
              modelsState := { caller.modelsState with
                error := some msg, isLoading := false }
              phase := .done } }
      else w

/-- Run a sequence of atomic steps. -/
def runModels (w : ModelsWorld) (evs : List CacheEv) : ModelsWorld :=
  evs.foldl stepModels w

/-- A fresh world with `n` consumers and an uninitialized cache. -/
def initialModelsWorld (n : Nat) : ModelsWorld :=
  { modelsCache := none, fetchCount := 0,
    callers := List.replicate n
      { modelsState := emptyModelsState, phase := .idle } }


/-- **C1.** For every active session with a current card, a successful
`answerCard(ease)` with ease in {1,2,3,4} submits the grade for the current
card to the engine, bumps `studied` and the bucket matching ease, records
the card id in `answeredCardIds`, and then either advances to the freshly
fetched snapshot of `cardQueue[currentIndex + 1]` with `showAnswer` reset
to false (when `currentIndex + 1` is in bounds) or sets `currentCard` to
none (queue exhausted). -/
theorem claim_C1_answerCard (c : AnkiClient) (ease : Nat) (s : PageState)
    (sess : StudySessionState) (card : CardInfo)
    (hsess : s.session = some sess) (hcard : sess.currentCard = some card)
    (h1 : 1 ≤ ease) (h4 : ease ≤ 4)
    (hok : c.answerCardsCall [(card.cardId, ease)] = Except.ok ()) :
    RpcCall.answerCards [(card.cardId, ease)] ∈ (answerCard c ease s).2 ∧
    (∀ next, sess.currentIndex + 1 < sess.cardQueue.length →
      c.cardInfo (sess.cardQueue.get? (sess.currentIndex + 1)) =
        Except.ok (some next) →
      (answerCard c ease s).1.session = some { sess with
        currentIndex := sess.currentIndex + 1
        currentCard := some next
        showAnswer := false
        answeredCardIds := insert card.cardId sess.answeredCardIds
        sessionStats :=
          { total := sess.sessionStats.total
            studied := sess.sessionStats.studied + 1
            again := if ease = 1 then sess.sessionStats.again + 1
              else sess.sessionStats.again
            hard := if ease = 2 then sess.sessionStats.hard + 1
              else sess.sessionStats.hard
            good := if ease = 3 then sess.sessionStats.good + 1
              else sess.sessionStats.good
            easy := if ease = 4 then sess.sessionStats.easy + 1
              else sess.sessionStats.easy } }) ∧
    (¬ sess.currentIndex + 1 < sess.cardQueue.length →
      (answerCard c ease s).1.session = some { sess with
        currentCard := none
        answeredCardIds := insert card.cardId sess.answeredCardIds
        sessionStats :=
          { total := sess.sessionStats.total
            studied := sess.sessionStats.studied + 1
            again := if ease = 1 then sess.sessionStats.again + 1
              else sess.sessionStats.again
            hard := if ease = 2 then sess.sessionStats.hard + 1
              else sess.sessionStats.hard
            good := if ease = 3 then sess.sessionStats.good + 1
              else sess.sessionStats.good
            easy := if ease = 4 then sess.sessionStats.easy + 1
              else sess.sessionStats.easy } }) := by
  refine ⟨?_, ?_, ?_⟩
  · simp only [answerCard, hsess, hcard, hok]
    split
    · split
      · simp
      · simp
    · simp
  · intro next hlt hnext
    simp only [answerCard, hsess, hcard, hok, if_pos hlt, hnext]
    simp [bumpStats_eq _ h1 h4]
  · intro hlt
    simp only [answerCard, hsess, hcard, hok, if_neg hlt]
    simp [bumpStats_eq _ h1 h4]

/-- Witness for C1: grading the first of two cards with ease 3 advances to
card 102 and bumps `good`. -/
theorem claim_C1_answerCard_witness :
    samplePage.session = some sampleSession ∧
    sampleSession.currentCard = some (sampleCard 101) ∧
    sampleClient.answerCardsCall [(101, 3)] = Except.ok () ∧
    (RpcCall.answerCards [(101, 3)] ∈ (answerCard sampleClient 3 samplePage).2 ∧
      (answerCard sampleClient 3 samplePage).1.session = some { sampleSession with
        currentIndex := 1
        currentCard := some (sampleCard 102)
        showAnswer := false
        answeredCardIds := insert 101 sampleSession.answeredCardIds
        sessionStats :=
          { total := 2, studied := 1, again := 0, hard := 0, good := 1,
            easy := 0 } }) := by
  have h := claim_C1_answerCard sampleClient 3 samplePage sampleSession
    (sampleCard 101) rfl rfl (by decide) (by decide) rfl
  refine ⟨rfl, rfl, rfl, h.1, ?_⟩
  have h2 := h.2.1 (sampleCard 102) (by decide) (by rfl)
  simpa [sampleSession] using h2

/-! ## Claim C2 -/

/-- **C2.** After a successful `startSession(query)` against an engine
honouring the batch-info contract: display list, queue and
`sessionStats.total` agree on the due-card count, `currentIndex = 0`,
`currentCard` is the head of the freshly fetched snapshots (and is
present), `showAnswer` is false, `answeredCardIds` is empty and all
counters are zero; moreover in every reachable state whose session has a
current card, `currentIndex < length(cardQueue)` (the lower bound `0 ≤
currentIndex` is trivial for a natural number index). -/
theorem claim_C2_startSession_init_and_invariant
    (tr : String → String) (c : AnkiClient) (q : String) (s : PageState)
    (ids : List Nat) (st : List Bool) (infos : List CardInfo)
    (hlen : ClientLenOk c)
    (hfc : c.findCards q = Except.ok ids) (hne : ids ≠ [])
    (hdue : c.areDue ids = Except.ok st)
    (hdueNe : filterByDue ids st ≠ [])
    (hinfos : c.cardsInfo ((filterByDue ids st).map some) = Except.ok infos) :
    (∃ sess, (startSession tr c q s).session = some sess ∧
      (startSession tr c q s).isSessionActive = true ∧
      sess.cardQueue = filterByDue ids st ∧
      sess.cardList.length = sess.cardQueue.length ∧
      sess.sessionStats.total = sess.cardQueue.length ∧
      sess.currentIndex = 0 ∧
      sess.currentCard = infos.head? ∧
      infos.head?.isSome = true ∧
      sess.showAnswer = false ∧
      sess.answeredCardIds = ∅ ∧
      sess.sessionStats.studied = 0 ∧ sess.sessionStats.again = 0 ∧
      sess.sessionStats.hard = 0 ∧ sess.sessionStats.good = 0 ∧
      sess.sessionStats.easy = 0) ∧
    (∀ s', Reachable tr s' → ∀ sess', s'.session = some sess' →
      sess'.currentCard.isSome → sess'.currentIndex < sess'.cardQueue.length) := by
  constructor
  · have hlen' : infos.length = (filterByDue ids st).length := by
      simpa using hlen _ _ hinfos
    have hinfNe : infos ≠ [] := by
      intro h
      apply hdueNe
      rw [h] at hlen'
      exact (List.length_eq_zero.mp hlen'.symm)
    simp only [startSession, hfc, hdue, hinfos]
    rw [if_neg (by simpa using hne), if_neg (by simpa using hdueNe)]
    refine ⟨_, rfl, rfl, rfl, by simpa using hlen', rfl, rfl,
      rfl, ?_, rfl, rfl, rfl, rfl, rfl, rfl, rfl⟩
    cases infos with
    | nil => exact absurd rfl hinfNe
    | cons a l => rfl
  · intro s' hr sess' hsess' hcard
    exact ((reachable_pageInvariant hr) sess' hsess').2 hcard

/-- Witness for C2 on the concrete two-card engine. -/
theorem claim_C2_witness :
    ClientLenOk sampleClient ∧
    sampleClient.findCards "is:due" = Except.ok [101, 102] ∧
    sampleClient.areDue [101, 102] = Except.ok [true, true] ∧
    filterByDue [101, 102] [true, true] ≠ [] ∧
    ((∃ sess,
      (startSession id sampleClient "is:due" initialPage).session = some sess ∧
      (startSession id sampleClient "is:due" initialPage).isSessionActive = true ∧
      sess.cardQueue = filterByDue [101, 102] [true, true] ∧
      sess.cardList.length = sess.cardQueue.length ∧
      sess.sessionStats.total = sess.cardQueue.length ∧
      sess.currentIndex = 0 ∧
      sess.currentCard = [sampleCard 101, sampleCard 102].head? ∧
      ([sampleCard 101, sampleCard 102] : List CardInfo).head?.isSome = true ∧
      sess.showAnswer = false ∧
      sess.answeredCardIds = ∅ ∧
      sess.sessionStats.studied = 0 ∧ sess.sessionStats.again = 0 ∧
      sess.sessionStats.hard = 0 ∧ sess.sessionStats.good = 0 ∧
      sess.sessionStats.easy = 0) ∧
    (∀ s', Reachable id s' → ∀ sess', s'.session = some sess' →
      sess'.currentCard.isSome →
      sess'.currentIndex < sess'.cardQueue.length)) :=
  ⟨sampleClient_lenOk, rfl, rfl, by decide,
    claim_C2_startSession_init_and_invariant id sampleClient "is:due"
      initialPage [101, 102] [true, true] [sampleCard 101, sampleCard 102]
      sampleClient_lenOk rfl (by decide) rfl (by decide) rfl⟩

/-! ## Claim C3 -/

/-- **C3.** Any RPC failure during `answerCard(ease)` — the grade
submission or the fetch of the next snapshot — leaves the session exactly
as it was and surfaces the error's message. -/
theorem claim_C3_answerCard_failure_preserves_state
    (c : AnkiClient) (ease : Nat) (s : PageState)
    (sess : StudySessionState) (card : CardInfo)
    (hsess : s.session = some sess) (hcard : sess.currentCard = some card) :
    (∀ e, c.answerCardsCall [(card.cardId, ease)] = Except.error e →
      (answerCard c ease s).1.session = s.session ∧
      (answerCard c ease s).1.error = some e) ∧
    (∀ e, c.answerCardsCall [(card.cardId, ease)] = Except.ok () →
      sess.currentIndex + 1 < sess.cardQueue.length →
      c.cardInfo (sess.cardQueue.get? (sess.currentIndex + 1)) =
        Except.error e →
      (answerCard c ease s).1.session = s.session ∧
      (answerCard c ease s).1.error = some e) := by
  constructor
  · intro e herr
    simp [answerCard, hsess, hcard, herr]
  · intro e hok hlt herr
    simp only [answerCard, hsess, hcard, hok, if_pos hlt, herr]
    simp [hsess]

/-- A client like `sampleClient` whose batch-info call always fails. -/
def failingInfoClient : AnkiClient :=
  { sampleClient with cardsInfo := fun _ => .error "HTTP 500" }

/-- Witness for C3: the next-card fetch fails after a successful grade
submission; the session is untouched and the message surfaced. -/
theorem claim_C3_witness :
    samplePage.session = some sampleSession ∧
    sampleSession.currentCard = some (sampleCard 101) ∧
    failingInfoClient.answerCardsCall [(101, 3)] = Except.ok () ∧
    sampleSession.currentIndex + 1 < sampleSession.cardQueue.length ∧
    ((answerCard failingInfoClient 3 samplePage).1.session =
        samplePage.session ∧
      (answerCard failingInfoClient 3 samplePage).1.error =
        some "HTTP 500") :=
  ⟨rfl, rfl, rfl, by decide,
    (claim_C3_answerCard_failure_preserves_state failingInfoClient 3
      samplePage sampleSession (sampleCard 101) rfl rfl).2 "HTTP 500" rfl
      (by decide) rfl⟩

/-! ## Claim C4 -/

/-- **C4.** From the idle page, a query matching no cards surfaces the
localized no-results error and creates no session; a query whose matches
have no due card surfaces the localized no-due-cards error and likewise
creates no session (`isSessionActive` stays false). -/
theorem claim_C4_startSession_empty (tr : String → String) :
    (∀ (c : AnkiClient) (q : String) (s : PageState),
      s.session = none → s.isSessionActive = false →
      c.findCards q = Except.ok [] →
      (startSession tr c q s).error = some (tr "study.errors.noCards") ∧
      (startSession tr c q s).isSessionActive = false ∧
      (startSession tr c q s).session = none) ∧
    (∀ (c : AnkiClient) (q : String) (s : PageState) (ids : List Nat)
      (st : List Bool),
      s.session = none → s.isSessionActive = false →
      c.findCards q = Except.ok ids → ids ≠ [] →
      c.areDue ids = Except.ok st → filterByDue ids st = [] →
      (startSession tr c q s).error = some (tr "study.errors.noDue") ∧
      (startSession tr c q s).isSessionActive = false ∧
      (startSession tr c q s).session = none) := by
  constructor
  · intro c q s hidle hact hfc
    simp [startSession, hfc, hidle, hact]
  · intro c q s ids st hidle hact hfc hne hdue hfilter
    simp [startSession, hfc, hdue, hfilter, hidle, hact,
      if_neg (by simpa using hne)]

/-- An engine that matches no cards at all. -/
def noResultsClient : AnkiClient :=
  { sampleClient with findCards := fun _ => .ok [] }

/-- An engine with one match that is not due. -/
def noDueClient : AnkiClient :=
  { sampleClient with
    findCards := fun _ => .ok [101]
    areDue := fun ids => .ok (ids.map (fun _ => false)) }

/-- Witness for C4: both failure conditions on concrete engines. -/
theorem claim_C4_witness :
    (noResultsClient.findCards "deck:NoSuchDeck" = Except.ok [] ∧
      (startSession id noResultsClient "deck:NoSuchDeck" initialPage).error =
        some "study.errors.noCards" ∧
      (startSession id noResultsClient "deck:NoSuchDeck"
        initialPage).isSessionActive = false ∧
      (startSession id noResultsClient "deck:NoSuchDeck"
        initialPage).session = none) ∧
    (noDueClient.findCards "deck:Default" = Except.ok [101] ∧
      noDueClient.areDue [101] = Except.ok [false] ∧
      filterByDue [101] [false] = [] ∧
      (startSession id noDueClient "deck:Default" initialPage).error =
        some "study.errors.noDue" ∧
      (startSession id noDueClient "deck:Default"
        initialPage).isSessionActive = false ∧
      (startSession id noDueClient "deck:Default" initialPage).session =
        none) := by
  have h := claim_C4_startSession_empty id
  refine ⟨⟨rfl, ?_⟩, ⟨rfl, rfl, by decide, ?_⟩⟩
  · exact h.1 noResultsClient "deck:NoSuchDeck" initialPage rfl rfl rfl
  · exact h.2 noDueClient "deck:Default" initialPage [101] [false] rfl rfl
      rfl (by decide) rfl (by decide)

/-! ## Claim C5 -/

/-- A card whose only audio reference sits in the answer face. -/
def c5Card : CardInfo :=
  { cardId := 1, question := "", answer := "[sound:a.mp3]", frontSide := "",
    backSide := "", fields := [] }

/-- **C5 counterexample.** For side `q` the resolver searches only the
question-side faces, so a directive `[anki:play:q:0]` on a card whose sole
sound directive lives in the answer resolves to nothing, while the
claim's all-faces combined text (question, answer, front, back, fields)
yields `a.mp3` at occurrence 0. -/
theorem claim_C5_counterexample :
    extractAudioFilename c5Card "q" 0 = none ∧
    claimExtractAudioFilename c5Card "q" 0 = some "a.mp3" ∧
    extractAudioFilename c5Card "q" 0 ≠ claimExtractAudioFilename c5Card "q" 0 := by
  exact ⟨rfl, rfl, by decide⟩

/-- **C5 as amended.** The resolver recovers the filename by searching the
combined text of the **side-selected** face and rendered face (question
and front for side `q`; answer and back for side `a`) followed by all
field values, joined in that fixed order, for the `n`-th occurrence in
the fixed class priority: bracketed sound directives, then tagged source
attributes with known audio extensions (reduced to their basename), then
bare filename tokens; it returns nothing when no class has an `n`-th
occurrence. -/
theorem claim_C5_extract_amended (card : CardInfo) (side : String) (n : Nat) :
    extractAudioFilename card side n = amendedExtractAudioFilename card side n := by
  simp only [extractAudioFilename, amendedExtractAudioFilename]
  cases h1 : (soundDirectives (combinedHtmlOf card side)).get? n with
  | some m => simp [h1, Option.orElse]
  | none =>
    cases h2 : (srcCaptures (combinedHtmlOf card side)).get? n with
    | some src => simp [h1, h2, Option.orElse]
    | none =>
      cases h3 : (fileCaptures (combinedHtmlOf card side)).get? n with
      | some f => simp [h1, h2, h3, Option.orElse]
      | none => simp [h1, h2, h3, Option.orElse]

/-! ## Claim C8 -/

/-- The sort-field preview exactly as claim C8 words it: markup stripped,
truncated to 100 characters — no whitespace trimming. -/
def claimSortFieldText (tr : String → String) (card : CardInfo) : String :=
  match card.fields.find? (fun f => f.2.order = 0) with
  | some entry => (stripTags entry.2.value).take 100
  | none => tr "study.unknown"

/-- The preview as amended: stripped, **trimmed of surrounding
whitespace**, then truncated; the fallback placeholder passes through the
same truncation. -/
def amendedSortFieldText (tr : String → String) (card : CardInfo) : String :=
  match card.fields.find? (fun f => f.2.order = 0) with
  | some entry => (jsTrim (stripTags entry.2.value)).take 100
  | none => (tr "study.unknown").take 100

/-- A card whose order-0 field value keeps whitespace inside the tags. -/
def c8Card : CardInfo :=
  { cardId := 7, question := "", answer := "", frontSide := "",
    backSide := "",
    fields := [("Front", { order := 0, value := "<b> Paris </b>" })] }

/-- An engine serving exactly `c8Card` as a due card. -/
def c8Client : AnkiClient :=
  { sampleClient with
    findCards := fun _ => .ok [7]
    cardsInfo := fun ids => .ok (ids.map (fun _ => c8Card)) }

/-- **C8 counterexample.** For the field value `"<b> Paris </b>"` the
session-start derivation yields `"Paris"` (the code trims after
stripping), while the claim's strip-then-truncate text is `" Paris "`. -/
theorem claim_C8_counterexample :
    ((startSession id c8Client "deck:Geo" initialPage).session.map
      (fun sess => sess.cardList.map (fun item => item.sortField))) =
      some ["Paris"] ∧
    claimSortFieldText id c8Card = " Paris " ∧
    ("Paris" : String) ≠ " Paris " := by
  exact ⟨rfl, rfl, by decide⟩

/-- **C8 as amended.** For every card fetched at session start, the
derived preview equals the order-0 field's value with markup stripped,
surrounding whitespace trimmed, and the result truncated to 100
characters (`"<b>Paris</b>"` still yields exactly `"Paris"`); when no
field has order 0 the preview is the localized unknown placeholder
(itself truncated to 100 characters). -/
theorem claim_C8_sortField_amended (tr : String → String) (c : AnkiClient)
    (q : String) (s : PageState) (ids : List Nat) (st : List Bool)
    (infos : List CardInfo)
    (hfc : c.findCards q = Except.ok ids) (hne : ids ≠ [])
    (hdue : c.areDue ids = Except.ok st)
    (hdueNe : filterByDue ids st ≠ [])
    (hinfos : c.cardsInfo ((filterByDue ids st).map some) = Except.ok infos) :
    (∃ sess, (startSession tr c q s).session = some sess ∧
      sess.cardList = infos.map (fun card =>
        { cardId := card.cardId, sortField := amendedSortFieldText tr card })) ∧
    amendedSortFieldText id
      { cardId := 0, question := "", answer := "", frontSide := "",
        backSide := "",
        fields := [("F", { order := 0, value := "<b>Paris</b>" })] } =
      "Paris" := by
  constructor
  · have hitem : ∀ card, cardListItemOf tr card =
        { cardId := card.cardId, sortField := amendedSortFieldText tr card } := by
      intro card
      unfold cardListItemOf amendedSortFieldText
      cases card.fields.find? (fun f => f.2.order = 0) with
      | some entry => rfl
      | none => rfl
    simp only [startSession, hfc, hdue, hinfos]
    rw [if_neg (by simpa using hne), if_neg (by simpa using hdueNe)]
    refine ⟨_, rfl, ?_⟩
    simp [hitem]
  · rfl

/-- Witness for the amended C8 on the concrete engine serving `c8Card`. -/
theorem claim_C8_sortField_amended_witness :
    c8Client.findCards "deck:Geo" = Except.ok [7] ∧
    c8Client.areDue [7] = Except.ok [true] ∧
    filterByDue [7] [true] ≠ [] ∧
    ((∃ sess,
      (startSession id c8Client "deck:Geo" initialPage).session = some sess ∧
      sess.cardList = [c8Card].map (fun card =>
        { cardId := card.cardId,
          sortField := amendedSortFieldText id card })) ∧
    amendedSortFieldText id
      { cardId := 0, question := "", answer := "", frontSide := "",
        backSide := "",
        fields := [("F", { order := 0, value := "<b>Paris</b>" })] } =
      "Paris") :=
  ⟨rfl, rfl, by decide,
    claim_C8_sortField_amended id c8Client "deck:Geo" initialPage [7] [true]
      [c8Card] rfl (by decide) rfl (by decide) rfl⟩

/-! ## Claim C10 -/

/-- A media oracle distinguishing the filename the code fetches for a
trailing-slash source (`"foo/"`) from the claim's substring-after-slash
filename (`""`). -/
def c10Retrieve : String → Except String (Option String) :=
  fun f =>
    if f = "foo/" then .ok (some "QQ")
    else if f = "" then .ok (some "ZZ") else .ok none

/-- **C10 counterexample.** For `src = "foo/"` the code fetches the whole
source (the `|| src` fallback of `split("/").pop()`), not the empty
substring after the last slash; and an empty `src` is skipped without any
fetch although it starts with neither `http` nor `data:`. -/
theorem claim_C10_counterexample :
    resolveMediaSrc c10Retrieve "foo/" =
      "data:application/octet-stream;base64,QQ" ∧
    claimResolveMediaSrc c10Retrieve "foo/" =
      "data:application/octet-stream;base64,ZZ" ∧
    resolveMediaSrc c10Retrieve "foo/" ≠ claimResolveMediaSrc c10Retrieve "foo/" ∧
    resolveMediaSrc c10Retrieve "" = "" ∧
    claimResolveMediaSrc c10Retrieve "" =
      "data:application/octet-stream;base64,ZZ" :=
  ⟨rfl, rfl, by decide, rfl, rfl⟩

/-- **C10 as amended.** A source attribute is left untouched without any
fetch exactly when it is empty or starts with `http` or `data:`; every
other source — including absolute paths — is fetched under the substring
after its last `/`, or under the whole source string when that substring
is empty; a fetch that throws, returns null, or returns an empty string
leaves the attribute unmodified. -/
theorem claim_C10_mediaSrc_amended
    (retrieve : String → Except String (Option String)) (src : String) :
    resolveMediaSrc retrieve src = amendedResolveMediaSrc retrieve src := by
  unfold resolveMediaSrc amendedResolveMediaSrc jsSplitPop
  by_cases h0 : src = ""
  · simp [h0]
  · by_cases hp : (startsWithLit "http" src || startsWithLit "data:" src) = true
    · simp [h0, hp]
    · have hp2 : ¬(startsWithLit "http" src = true ∨
          startsWithLit "data:" src = true) := by
        simpa [Bool.or_eq_true] using hp
      have hmk : ((⟨lastSeg '/' src.data⟩ : String) = "") ↔
          lastSeg '/' src.data = [] := by
        constructor
        · intro h; exact congrArg String.data h
        · intro h; rw [h]
      by_cases hl : lastSeg '/' src.data = []
      · simp [h0, hp, hp2, hl, hmk]
      · simp [h0, hp, hp2, hl, hmk]

/-! ## Claim C7 -/

theorem playQueueFrom_started_mem (outs : List PlayOutcome) :
    ∀ (i k : Nat), k < outs.length →
      PlayEvent.playStarted (i + k) ∈ playQueueFrom i outs := by
  induction outs with
  | nil => intro i k h; simp at h
  | cons o rest ih =>
    intro i k h
    cases k with
    | zero => simp [playQueueFrom]
    | succ k' =>
      have hmem := ih (i + 1) k' (Nat.lt_of_succ_lt_succ h)
      have harith : i + (k' + 1) = (i + 1) + k' := by omega
      simp only [playQueueFrom, List.mem_cons]
      right; right
      rw [harith]
      exact hmem

theorem playQueueFrom_finished_before (outs : List PlayOutcome) :
    ∀ (i k p : Nat),
      (playQueueFrom i outs).get? p =
        some (PlayEvent.playStarted (i + k + 1)) →
      ∃ q, q < p ∧ (playQueueFrom i outs).get? q =
        some (PlayEvent.finished (i + k) (outs.getD k PlayOutcome.ended)) := by
  induction outs with
  | nil => intro i k p h; simp [playQueueFrom] at h
  | cons o rest ih =>
    intro i k p h
    match p with
    | 0 =>
      simp [playQueueFrom] at h
      omega
    | 1 => simp [playQueueFrom] at h
    | p' + 2 =>
      simp only [playQueueFrom, List.get?_cons_succ] at h
      cases k with
      | zero =>
        refine ⟨1, by omega, ?_⟩
        simp [playQueueFrom]
      | succ k' =>
        have harith : i + (k' + 1) + 1 = (i + 1) + k' + 1 := by omega
        rw [harith] at h
        obtain ⟨q, hq, hget⟩ := ih (i + 1) k' p' h
        refine ⟨q + 2, by omega, ?_⟩
        simp only [playQueueFrom, List.get?_cons_succ]
        have harith2 : i + (k' + 1) = (i + 1) + k' := by omega
        rw [harith2]
        simpa using hget

/-- **C7.** Under auto-play the playable elements are handled strictly
sequentially in document order: every element's `play()` is eventually
invoked regardless of earlier failures, and the start of element `k + 1`
appears in the trace only after the end-or-error (or play-failure) event
of element `k`. -/
theorem claim_C7_sequential_playback (outs : List PlayOutcome) :
    (∀ k, k < outs.length → PlayEvent.playStarted k ∈ playQueue outs) ∧
    (∀ k p, (playQueue outs).get? p = some (PlayEvent.playStarted (k + 1)) →
      ∃ q, q < p ∧ (playQueue outs).get? q =
        some (PlayEvent.finished k (outs.getD k PlayOutcome.ended))) := by
  constructor
  · intro k hk
    simpa using playQueueFrom_started_mem outs 0 k hk
  · intro k p h
    have h' : (playQueueFrom 0 outs).get? p =
        some (PlayEvent.playStarted (0 + k + 1)) := by simpa using h
    simpa using playQueueFrom_finished_before outs 0 k p h'

/-- Witness for C7 on three elements whose first play fails. -/
theorem claim_C7_witness :
    (0 < 3 ∧ PlayEvent.playStarted 0 ∈
      playQueue [PlayOutcome.playFailed, PlayOutcome.ended,
        PlayOutcome.errorEvent]) ∧
    ((playQueue [PlayOutcome.playFailed, PlayOutcome.ended,
        PlayOutcome.errorEvent]).get? 2 =
      some (PlayEvent.playStarted 1) ∧
    ∃ q, q < 2 ∧ (playQueue [PlayOutcome.playFailed, PlayOutcome.ended,
        PlayOutcome.errorEvent]).get? q =
      some (PlayEvent.finished 0
        ([PlayOutcome.playFailed, PlayOutcome.ended,
          PlayOutcome.errorEvent].getD 0 PlayOutcome.ended))) :=
  ⟨⟨by decide,
    (claim_C7_sequential_playback _).1 0 (by decide)⟩,
   rfl,
    (claim_C7_sequential_playback _).2 0 2 rfl⟩

/-! ## Claim C9 -/

/-- **C9 counterexample.** A second `loadModels` that begins while the
first consumer's fetch is still in flight (cache uninitialized, local
state uninitialized) passes the guard and issues its own fetch: after
`callLoad 0` the cache is still unset and the fetch count is 1, and
`callLoad 1` raises it to 2 — the claimed single-flight collapse does not
exist. -/
theorem claim_C9_counterexample :
    (runModels (initialModelsWorld 2) [CacheEv.callLoad 0]).fetchCount = 1 ∧
    (runModels (initialModelsWorld 2)
      [CacheEv.callLoad 0]).modelsCache = none ∧
    ((runModels (initialModelsWorld 2) [CacheEv.callLoad 0]).callers.get? 0).map
      (fun c => c.phase) = some LoadPhase.inFlight ∧
    ((runModels (initialModelsWorld 2) [CacheEv.callLoad 0]).callers.get? 1).map
      (fun c => c.modelsState.initialized) = some false ∧
    (runModels (initialModelsWorld 2)
      [CacheEv.callLoad 0, CacheEv.callLoad 1]).fetchCount = 2 ∧
    (runModels (initialModelsWorld 2)
      [CacheEv.callLoad 0, CacheEv.callLoad 1,
        CacheEv.completeOk 0 [(1, "Basic")] [("Basic", 1)],
        CacheEv.completeOk 1 [(1, "Basic")] [("Basic", 1)]]).fetchCount = 2 :=
  ⟨rfl, rfl, rfl, rfl, rfl, rfl⟩

/-- **C9 as amended.** Initialization attempts are deduplicated only
through the `initialized` flags: a `loadModels` call beginning when the
caller's local state or the global cache is already initialized issues no
fetch and changes nothing, while a call beginning when neither is
initialized — in particular while another consumer's fetch is still in
flight — always issues its own (duplicate) fetch. -/
theorem claim_C9_models_cache_amended (w : ModelsWorld) (i : Nat)
    (caller : CallerSt) (hc : w.callers.get? i = some caller) :
    ((caller.modelsState.initialized = true ∨
        (w.modelsCache.map (fun m => m.initialized)).getD false = true) →
      stepModels w (CacheEv.callLoad i) = w) ∧
    (caller.modelsState.initialized = false →
      (w.modelsCache.map (fun m => m.initialized)).getD false = false →
      (stepModels w (CacheEv.callLoad i)).fetchCount = w.fetchCount + 1) := by
  constructor
  · intro h
    simp only [stepModels, hc]
    have hguard : (caller.modelsState.initialized ||
        (w.modelsCache.map (fun m => m.initialized)).getD false) = true := by
      rcases h with h | h <;> simp [h]
    rw [if_pos hguard]
  · intro h1 h2
    simp only [stepModels, hc]
    rw [if_neg (by simp [h1, h2])]

/-- Witness for the amended C9: the very first call in a fresh two-consumer
world issues a fetch. -/
theorem claim_C9_models_cache_amended_witness :
    (initialModelsWorld 2).callers.get? 0 =
      some { modelsState := emptyModelsState, phase := LoadPhase.idle } ∧
    (stepModels (initialModelsWorld 2) (CacheEv.callLoad 0)).fetchCount =
      (initialModelsWorld 2).fetchCount + 1 :=
  ⟨rfl,
    (claim_C9_models_cache_amended (initialModelsWorld 2) 0
      { modelsState := emptyModelsState, phase := LoadPhase.idle } rfl).2
      rfl rfl⟩

/-! ## Claim C6 -/

theorem strData_append (s t : String) : (s ++ t).data = s.data ++ t.data :=
  rfl

theorem hasSub_append_right (s : List Char) {t sub : List Char}
    (h : hasSub t sub = true) : hasSub (s ++ t) sub = true := by
  induction s with
  | nil => simpa using h
  | cons c cs ih =>
    show hasSub (c :: (cs ++ t)) sub = true
    unfold hasSub
    rw [Bool.or_eq_true]
    exact Or.inr ih

theorem containsStr_append_right (a rest sub : String)
    (h : containsStr rest sub = true) : containsStr (a ++ rest) sub = true := by
  unfold containsStr at h ⊢
  rw [strData_append]
  exact hasSub_append_right a.data h

/-- The data URL of the hidden playable element sits inside the generated
control, whatever the random id and the filename are. -/
theorem buttonHtml_contains_dataUrl (audioId filename : String) :
    containsStr (buttonHtml audioId "audio/mpeg" "AAAA" filename)
      "data:audio/mpeg;base64,AAAA" = true := by
  unfold buttonHtml
  apply containsStr_append_right
  apply containsStr_append_right
  apply containsStr_append_right
  apply containsStr_append_right
  apply containsStr_append_right
  apply containsStr_append_right
  decide

/-- Replacing a pattern inside itself yields the replacement. -/
theorem replaceFirst_exact (pat rep : String) :
    replaceFirst pat rep pat = rep := by
  unfold replaceFirst replaceFirstAux
  rw [if_pos (by rw [List.isPrefixOf_iff_prefix])]
  rw [List.drop_length, List.append_nil]

/-- A media oracle with data for `foo.mp3` and a failure for everything
else. -/
def c6Mixed : String → Except String (Option String) :=
  fun f => if f = "foo.mp3" then .ok (some "AAAA") else .error "HTTP 500"

/-- A concrete id source for the closed evaluation. -/
def c6IdGen : Nat → String := fun _ => "a0"

/-- **C6.** On input HTML `"[sound:foo.mp3]"` with an empty memo cache, a
fetch returning base64 `"AAAA"` replaces the directive with the
interactive control whose hidden playable element's source is exactly
`data:audio/mpeg;base64,AAAA`; a fetch that throws or returns null
replaces it with the plain text label `[foo.mp3]`; and a fetch failure
for one directive does not abort resolution of the others. -/
theorem claim_C6_soundDirective_resolution :
    (∀ (retrieve : String → Except String (Option String))
      (idGen : Nat → String),
      retrieve "foo.mp3" = Except.ok (some "AAAA") →
      containsStr
        (processDirectives retrieve none idGen initialResolveSt
          "[sound:foo.mp3]").1
        "data:audio/mpeg;base64,AAAA" = true) ∧
    (∀ (retrieve : String → Except String (Option String))
      (idGen : Nat → String) (e : String),
      retrieve "foo.mp3" = Except.error e →
      (processDirectives retrieve none idGen initialResolveSt
        "[sound:foo.mp3]").1 = plainLabel "foo.mp3" ∧
      containsStr (plainLabel "foo.mp3") "[foo.mp3]" = true) ∧
    (∀ (retrieve : String → Except String (Option String))
      (idGen : Nat → String),
      retrieve "foo.mp3" = Except.ok none →
      (processDirectives retrieve none idGen initialResolveSt
        "[sound:foo.mp3]").1 = plainLabel "foo.mp3") ∧
    (containsStr
      (processDirectives c6Mixed none c6IdGen initialResolveSt
        "[sound:bad.mp3][sound:foo.mp3]").1
      "data:audio/mpeg;base64,AAAA" = true ∧
    containsStr
      (processDirectives c6Mixed none c6IdGen initialResolveSt
        "[sound:bad.mp3][sound:foo.mp3]").1
      "[bad.mp3]" = true) := by
  have hsd : soundDirectives "[sound:foo.mp3]" =
      [("[sound:foo.mp3]", "foo.mp3")] := rfl
  have hap : ankiPlayDirectives "[sound:foo.mp3]" = ([] : List (String × String × Nat)) := rfl
  have hmime : getMimeType "foo.mp3" = "audio/mpeg" := rfl
  refine ⟨?_, ?_, ?_, ?_, ?_⟩
  · intro retrieve idGen hret
    simp only [processDirectives, hsd, hap, List.foldl_cons, List.foldl_nil,
      createAudioButton, lookupCache, initialResolveSt, List.find?_nil,
      Option.map_none, hret, List.nil_append, hmime]
    rw [replaceFirst_exact]
    exact buttonHtml_contains_dataUrl (idGen 0) "foo.mp3"
  · intro retrieve idGen e hret
    constructor
    · simp only [processDirectives, hsd, hap, List.foldl_cons, List.foldl_nil,
        createAudioButton, lookupCache, initialResolveSt, List.find?_nil,
        Option.map_none, hret, List.nil_append]
      rw [replaceFirst_exact]
      rfl
    · decide
  · intro retrieve idGen hret
    simp only [processDirectives, hsd, hap, List.foldl_cons, List.foldl_nil,
      createAudioButton, lookupCache, initialResolveSt, List.find?_nil,
      Option.map_none, hret, List.nil_append]
    rw [replaceFirst_exact]
    rfl
  · rfl
  · rfl

/-- Witness for C6 at concrete oracles. -/
theorem claim_C6_witness :
    c6Mixed "foo.mp3" = Except.ok (some "AAAA") ∧
    containsStr
      (processDirectives c6Mixed none c6IdGen initialResolveSt
        "[sound:foo.mp3]").1
      "data:audio/mpeg;base64,AAAA" = true ∧
    (fun _ : String => (Except.error "HTTP 500" : Except String (Option String)))
      "foo.mp3" = Except.error "HTTP 500" ∧
    (processDirectives
      (fun _ : String => (Except.error "HTTP 500" : Except String (Option String)))
      none c6IdGen initialResolveSt "[sound:foo.mp3]").1 =
      plainLabel "foo.mp3" :=
  ⟨rfl,
   claim_C6_soundDirective_resolution.1 c6Mixed c6IdGen rfl,
   rfl,
   (claim_C6_soundDirective_resolution.2.1
     (fun _ => Except.error "HTTP 500") c6IdGen "HTTP 500" rfl).1⟩

end AnkiWeb
